import Mathlib

/-!
Shallow embedding of the RMII (Reduced Media-Independent Interface)
libsigrokdecode protocol decoder (`pd.py`), together with proofs about its
demultiplexing, byte-assembly and event-emission behaviour.

Signal levels delivered by the sample source are modelled as `Nat` (Python
delivers the ints 0/1; Python truthiness `not x` for an int is `x == 0`).
Sample indices are modelled as `Int` so that the interval arithmetic in
`handle_dibit` (`sample_end += self.samplenum - self.dibits[0][1]`) is exact
Python integer arithmetic.  Places where the Python code would raise an
`IndexError` (indexing into an empty `self.dibits`) are modelled by `Option`,
with `none` standing for the crash.
-/

namespace RMII

/-- Bus flavour for the shared valid wire: `valid_bit_type` option of the
decoder, values `CRS_DV` (default) and `TX_EN`. -/
inductive BusMode where
  | CRS_DV
  | TX_EN
deriving DecidableEq, Repr

/-- Python constant `BITS_PER_BYTE = 8`. -/
def BITS_PER_BYTE : Nat := 8

/-- Python constant `ANNOTATION_CLASS_INDEX_OCTETS = 0`. -/
def ANNOTATION_CLASS_INDEX_OCTETS : Nat := 0

/-- Python constant `ANNOTATION_CLASS_INDEX_DIBITS = 1`. -/
def ANNOTATION_CLASS_INDEX_DIBITS : Nat := 1

/-- One entry of `self.dibits`: the Python list `[dibit, samplenum, sample_end]`
(indices `DIBIT_ANNOTATION_LIST_INDEX_VALUE / _SAMPLE_START / _SAMPLE_END`). -/
structure DibitRecord where
  value : Nat
  sampleStart : Int
  sampleEnd : Int
deriving DecidableEq, Repr

/-- The decoder's mutable per-session state: `self.crs`, `self.dv`,
`self.bitcount`, `self.octet`, `self.dibits` (newest record first). -/
structure DecoderState where
  crs : Nat
  dv : Nat
  bitcount : Nat
  octet : Nat
  dibits : List DibitRecord
deriving DecidableEq, Repr

/-- One annotation handed to `self.put(sample_start, sample_end, self.out_ann,
[class, [label]])`. -/
structure AnnEvent where
  sampleStart : Int
  sampleEnd : Int
  annClass : Nat
  label : String
deriving DecidableEq, Repr

/-- Python `Decoder.reset_decoder_state`: clears `bitcount`, `octet` and
`dibits` and nothing else (`self.crs` / `self.dv` keep their values). -/
def reset_decoder_state (s : DecoderState) : DecoderState :=
  { s with bitcount := 0, octet := 0, dibits := [] }

/-- Python `Decoder.reset` (run at construction): `self.crs = 0`, `self.dv = 0`,
then `reset_decoder_state()`.  (`self.samplerate` is stored but unused by the
decode logic and is not modelled.) -/
def resetState : DecoderState :=
  reset_decoder_state { crs := 0, dv := 0, bitcount := 0, octet := 0, dibits := [] }

/-- Uppercase hexadecimal digit, as produced by Python `'%X'` formatting. -/
def hexDigit (n : Nat) : Char :=
  if n < 10 then Char.ofNat (48 + n) else Char.ofNat (55 + n)

/-- Python `'%02X' % n` for `0 ≤ n < 256`: exactly two uppercase hex digits. -/
def hex2 (n : Nat) : String :=
  String.mk [hexDigit (n / 16), hexDigit (n % 16)]

/-- Python `Decoder.putdata`: emit one di-bit annotation per record of
`self.dibits` (in list order, newest first), then one octet annotation from
`self.dibits[-1]`'s start sample to `self.dibits[0]`'s end sample, labelled
`'%02X' % self.octet`.  On an empty `self.dibits` the Python code would raise
an `IndexError`, modelled as `none`. -/
def putdata (octet : Nat) (dibits : List DibitRecord) : Option (List AnnEvent) :=
  match dibits with
  | [] => none
  | newest :: rest =>
    some ((newest :: rest).map (fun d =>
        { sampleStart := d.sampleStart, sampleEnd := d.sampleEnd,
          annClass := ANNOTATION_CLASS_INDEX_DIBITS, label := Nat.repr d.value })
      ++ [{ sampleStart := ((newest :: rest).getLast (List.cons_ne_nil newest rest)).sampleStart,
            sampleEnd := newest.sampleEnd,
            annClass := ANNOTATION_CLASS_INDEX_OCTETS, label := hex2 octet }])

/-- The CRS/DV demultiplexing head of `Decoder.handle_dibit` (pd.py lines
113-127): returns the new `(crs, dv, dv_updated)` triple.  In `TX_EN` mode both
flags take the `valid` level and `dv_updated` is set; in `CRS_DV` mode, when
`bitcount & 0x2 == 0` only `crs` is assigned, otherwise only `dv` is assigned
and `dv_updated` is set. -/
def demux (mode : BusMode) (s : DecoderState) (valid : Nat) : Nat × Nat × Bool :=
  match mode with
  | .TX_EN => (valid, valid, true)
  | .CRS_DV =>
    if s.bitcount &&& 0x2 == 0 then (valid, s.dv, false)
    else (s.crs, valid, true)

/-- The symbol-assembly body of `Decoder.handle_dibit` (pd.py lines 139-157):
clock the di-bit `(dibit1 << 1) | dibit0` into `octet` at position `bitcount`,
insert a new record at the front of `dibits` with a provisional end sample
(`samplenum` for the first symbol of a byte, otherwise
`samplenum + (samplenum - dibits[0].sampleStart)`), then overwrite the previous
front record's end sample with `samplenum`, and advance `bitcount` by 2.
`none` models the `IndexError` the Python code would raise when
`bitcount > 0` but `dibits` is empty. -/
def clock_in (samplenum : Int) (dibit1 dibit0 : Nat) (s : DecoderState) :
    Option DecoderState :=
  let dibit := (dibit1 <<< 1) ||| dibit0
  let octet := s.octet ||| (dibit <<< s.bitcount)
  if s.bitcount > 0 then
    match s.dibits with
    | [] => none
    | prev :: rest =>
      let sample_end := samplenum + (samplenum - prev.sampleStart)
      some { s with octet := octet,
                    dibits := { value := dibit, sampleStart := samplenum, sampleEnd := sample_end }
                      :: { prev with sampleEnd := samplenum } :: rest,
                    bitcount := s.bitcount + 2 }
  else
    some { s with octet := octet,
                  dibits := { value := dibit, sampleStart := samplenum, sampleEnd := samplenum }
                    :: s.dibits,
                  bitcount := s.bitcount + 2 }

/-- Python `Decoder.handle_dibit`: demultiplex the valid wire, reset (and stop)
when data is known invalid or the bus is idle, otherwise clock in the di-bit
and, when `bitcount` reaches `BITS_PER_BYTE`, emit annotations via `putdata`
followed by a state reset.  Returns the new state and the emitted events. -/
def handle_dibit (mode : BusMode) (samplenum : Int) (s : DecoderState)
    (valid dibit1 dibit0 : Nat) : Option (DecoderState × List AnnEvent) :=
  match demux mode s valid with
  | (crs, dv, dv_updated) =>
    let s1 : DecoderState := { s with crs := crs, dv := dv }
    if dv_updated && (dv == 0) then
      some (reset_decoder_state s1, [])
    else if (crs == 0) && (dv == 0) then
      some (reset_decoder_state s1, [])
    else
      match clock_in samplenum dibit1 dibit0 s1 with
      | none => none
      | some s2 =>
        if s2.bitcount == BITS_PER_BYTE then
          match putdata s2.octet s2.dibits with
          | none => none
          | some evs => some (reset_decoder_state s2, evs)
        else
          some (s2, [])

/-- Python `Decoder.find_clk_edge`: drop the sample when it is the first of the
run or the clock channel is not flagged as changed; otherwise require the clock
level to be low in `TX_EN` mode (falling edge) or high in `CRS_DV` mode (rising
edge), and hand the sample to `handle_dibit`.  Dropped samples leave the state
unchanged and emit nothing. -/
def find_clk_edge (mode : BusMode) (matchedClk : Bool) (samplenum : Int)
    (s : DecoderState) (clk valid dibit1 dibit0 : Nat) (first : Bool) :
    Option (DecoderState × List AnnEvent) :=
  if first || !matchedClk then
    some (s, [])
  else
    match mode with
    | .TX_EN =>
      if clk != 0 then some (s, [])
      else handle_dibit mode samplenum s valid dibit1 dibit0
    | .CRS_DV =>
      if clk == 0 then some (s, [])
      else handle_dibit mode samplenum s valid dibit1 dibit0

/-- A sample that passed the edge gate and is handed to `handle_dibit`. -/
structure AcceptedSample where
  samplenum : Int
  valid : Nat
  dibit1 : Nat
  dibit0 : Nat
deriving DecidableEq, Repr

/-- Run `handle_dibit` over a list of accepted samples, threading the state and
concatenating the emitted events in order. -/
def run_dibits (mode : BusMode) :
    DecoderState → List AcceptedSample → Option (DecoderState × List AnnEvent)
  | s, [] => some (s, [])
  | s, a :: rest =>
    match handle_dibit mode a.samplenum s a.valid a.dibit1 a.dibit0 with
    | none => none
    | some (s1, evs1) =>
      match run_dibits mode s1 rest with
      | none => none
      | some (s2, evs2) => some (s2, evs1 ++ evs2)
termination_by structural _ l => l

/-- One sample delivered by the sample source's `wait`: the four channel levels,
the sample index, and whether the clock channel was flagged as changed
(`self.matched[CHANNEL_INDEX_CLK]`). -/
structure WaitedSample where
  samplenum : Int
  clk : Nat
  valid : Nat
  dibit1 : Nat
  dibit0 : Nat
  matchedClk : Bool
deriving DecidableEq, Repr

/-- Run `find_clk_edge` over the delivered samples; `first` is true exactly for
the head of the whole run, matching `Decoder.decode`'s loop. -/
def run_waited (mode : BusMode) :
    DecoderState → Bool → List WaitedSample → Option (DecoderState × List AnnEvent)
  | s, _, [] => some (s, [])
  | s, first, w :: rest =>
    match find_clk_edge mode w.matchedClk w.samplenum s w.clk w.valid w.dibit1 w.dibit0 first with
    | none => none
    | some (s1, evs1) =>
      match run_waited mode s1 false rest with
      | none => none
      | some (s2, evs2) => some (s2, evs1 ++ evs2)
termination_by structural _ _ l => l

/-- Length of the `Decoder.channels` tuple: clk, valid, dibit1, dibit0. -/
def CHANNELS_LENGTH : Nat := 4

/-- Message of the `ChannelError` raised by `Decoder.decode`. -/
def CHANNEL_ERROR_MESSAGE : String := "All RMII signal pins are required!"

/-- Python `Decoder.decode`: first check that every one of the four channels is
present (raising `ChannelError` before any `wait` call otherwise), then process
the first waited sample with `first = True` and all subsequent ones with
`first = False`.  An internal `IndexError` crash is reported as an error. -/
def decode (mode : BusMode) (hasChannel : Nat → Bool)
    (samples : List WaitedSample) : Except String (List AnnEvent) :=
  if (List.range CHANNELS_LENGTH).all hasChannel then
    match run_waited mode resetState true samples with
    | some (_, evs) => Except.ok evs
    | none => Except.error "IndexError"
  else
    Except.error CHANNEL_ERROR_MESSAGE

/-- Numeric value of an uppercase hexadecimal digit character (spec-side
helper for checking the octet label rendering). -/
def hexVal (c : Char) : Nat :=
  if c.toNat ≤ 57 then c.toNat - 48 else c.toNat - 55

/-- Character test: decimal digit or uppercase `A`-`F` (spec-side helper). -/
def isHexUpperDigit (c : Char) : Bool :=
  (48 ≤ c.toNat && c.toNat ≤ 57) || (65 ≤ c.toNat && c.toNat ≤ 70)

/-- Example state: two symbols of a byte assembled (`bitcount = 4`), as reached
after accepted TX_EN samples at indices 0 and 10 carrying symbols 3 and 1. -/
def twoSymbolState : DecoderState :=
  { crs := 1, dv := 1, bitcount := 4, octet := 7,
    dibits := [{ value := 1, sampleStart := 10, sampleEnd := 30 },
               { value := 3, sampleStart := 0, sampleEnd := 10 }] }

/-- Example state: one symbol record held (`bitcount = 2`). -/
def oneSymbolState : DecoderState :=
  { crs := 1, dv := 1, bitcount := 2, octet := 2,
    dibits := [{ value := 2, sampleStart := 5, sampleEnd := 5 }] }

/-- Example state reached from `resetState` by one accepted TX_EN sample at
index 0 with `valid = 1` and both data bits 0. -/
def afterOneTxSymbol : DecoderState :=
  { crs := 1, dv := 1, bitcount := 2, octet := 0,
    dibits := [{ value := 0, sampleStart := 0, sampleEnd := 0 }] }

/-- The proceed-condition of `handle_dibit`: neither the freshly-updated
data-valid-is-low check nor the idle check fires, so a symbol is clocked in. -/
def accepted_symbol (mode : BusMode) (s : DecoderState) (valid : Nat) : Prop :=
  ¬((demux mode s valid).2.2 = true ∧ (demux mode s valid).2.1 = 0) ∧
  ¬((demux mode s valid).1 = 0 ∧ (demux mode s valid).2.1 = 0)

instance (mode : BusMode) (s : DecoderState) (valid : Nat) :
    Decidable (accepted_symbol mode s valid) := by
  unfold accepted_symbol
  infer_instance

lemma clock_in_zero (n : Int) (d1 d0 : Nat) (s : DecoderState) (h : s.bitcount = 0) :
    clock_in n d1 d0 s = some { s with
      octet := s.octet ||| (((d1 <<< 1) ||| d0) <<< s.bitcount),
      dibits := { value := (d1 <<< 1) ||| d0, sampleStart := n, sampleEnd := n } :: s.dibits,
      bitcount := s.bitcount + 2 } := by
  simp only [clock_in]
  rw [if_neg (by omega)]

lemma clock_in_pos (n : Int) (d1 d0 : Nat) (s : DecoderState) (prev : DibitRecord)
    (rest : List DibitRecord) (hb : 0 < s.bitcount) (hd : s.dibits = prev :: rest) :
    clock_in n d1 d0 s = some { s with
      octet := s.octet ||| (((d1 <<< 1) ||| d0) <<< s.bitcount),
      dibits := { value := (d1 <<< 1) ||| d0, sampleStart := n,
                  sampleEnd := n + (n - prev.sampleStart) }
        :: { prev with sampleEnd := n } :: rest,
      bitcount := s.bitcount + 2 } := by
  simp only [clock_in, hd]
  rw [if_pos hb]

lemma clock_in_flags (n : Int) (d1 d0 : Nat) (s s2 : DecoderState)
    (h : clock_in n d1 d0 s = some s2) :
    s2.crs = s.crs ∧ s2.dv = s.dv ∧ s2.bitcount = s.bitcount + 2 := by
  simp only [clock_in] at h
  split at h
  · split at h
    · exact absurd h (by simp)
    · simp only [Option.some.injEq] at h
      subst h
      exact ⟨rfl, rfl, rfl⟩
  · simp only [Option.some.injEq] at h
    subst h
    exact ⟨rfl, rfl, rfl⟩

lemma handle_dibit_flags (mode : BusMode) (n : Int) (s : DecoderState) (valid d1 d0 : Nat)
    (s2 : DecoderState) (evs : List AnnEvent)
    (h : handle_dibit mode n s valid d1 d0 = some (s2, evs)) :
    s2.crs = (demux mode s valid).1 ∧ s2.dv = (demux mode s valid).2.1 := by
  rcases hdx : demux mode s valid with ⟨crs, dv, du⟩
  simp only [handle_dibit, hdx] at h
  split at h
  · simp only [Option.some.injEq, Prod.mk.injEq] at h
    obtain ⟨h1, h2⟩ := h
    subst h1
    exact ⟨rfl, rfl⟩
  · split at h
    · simp only [Option.some.injEq, Prod.mk.injEq] at h
      obtain ⟨h1, h2⟩ := h
      subst h1
      exact ⟨rfl, rfl⟩
    · rcases hc : clock_in n d1 d0 { s with crs := crs, dv := dv } with _ | s3 <;>
        rw [hc] at h
      · exact absurd h (by simp)
      · obtain ⟨hcrs, hdv, _⟩ := clock_in_flags _ _ _ _ _ hc
        simp only [] at h
        split at h
        · rcases hp : putdata s3.octet s3.dibits with _ | pevs <;> rw [hp] at h
          · exact absurd h (by simp)
          · simp only [Option.some.injEq, Prod.mk.injEq] at h
            obtain ⟨h1, h2⟩ := h
            subst h1
            exact ⟨hcrs, hdv⟩
        · simp only [Option.some.injEq, Prod.mk.injEq] at h
          obtain ⟨h1, h2⟩ := h
          subst h1
          exact ⟨hcrs, hdv⟩

/-- C3: on every accepted sample, the demultiplexer sets, in `TX_EN` mode, both
`crs` and `dv` to the `valid` level with `dv` freshly updated; in `CRS_DV` mode
with `bitcount & 2 == 0` it assigns only `crs` (no fresh `dv` update), and with
`bitcount & 2 != 0` only `dv` (freshly updated).  Moreover every state produced
by `handle_dibit` carries exactly the flags computed by `demux`. -/
theorem c3_demux_flag_updates :
    (∀ (s : DecoderState) (valid : Nat),
        demux .TX_EN s valid = (valid, valid, true)) ∧
    (∀ (s : DecoderState) (valid : Nat), s.bitcount &&& 2 = 0 →
        demux .CRS_DV s valid = (valid, s.dv, false)) ∧
    (∀ (s : DecoderState) (valid : Nat), s.bitcount &&& 2 ≠ 0 →
        demux .CRS_DV s valid = (s.crs, valid, true)) ∧
    (∀ (mode : BusMode) (n : Int) (s : DecoderState) (valid d1 d0 : Nat)
        (s2 : DecoderState) (evs : List AnnEvent),
        handle_dibit mode n s valid d1 d0 = some (s2, evs) →
        s2.crs = (demux mode s valid).1 ∧ s2.dv = (demux mode s valid).2.1) := by
  refine ⟨fun s valid => rfl, fun s valid h => ?_, fun s valid h => ?_,
    fun mode n s valid d1 d0 s2 evs h => handle_dibit_flags mode n s valid d1 d0 s2 evs h⟩
  · simp [demux, h]
  · simp [demux, h]

/-- Witness for C3 at concrete inputs. -/
theorem c3_witness :
    demux .CRS_DV resetState 1 = (1, resetState.dv, false) ∧
    demux .CRS_DV oneSymbolState 1 = (oneSymbolState.crs, 1, true) ∧
    (afterOneTxSymbol.crs = (demux .TX_EN resetState 1).1 ∧
      afterOneTxSymbol.dv = (demux .TX_EN resetState 1).2.1) :=
  ⟨c3_demux_flag_updates.2.1 resetState 1 (by decide),
   c3_demux_flag_updates.2.2.1 oneSymbolState 1 (by decide),
   c3_demux_flag_updates.2.2.2 .TX_EN 0 resetState 1 0 0 afterOneTxSymbol [] (by decide)⟩

/-- C4: when the data-valid flag was freshly updated to false, or otherwise
when both flags are false, `handle_dibit` performs a full decoder-state reset
(`bitcount = 0`, `octet = 0`, empty record list), keeps the freshly demuxed
flags, emits no event and clocks in no symbol. -/
theorem c4_invalid_or_idle_resets (mode : BusMode) (n : Int) (s : DecoderState)
    (valid d1 d0 : Nat)
    (h : ((demux mode s valid).2.2 = true ∧ (demux mode s valid).2.1 = 0) ∨
         ((demux mode s valid).1 = 0 ∧ (demux mode s valid).2.1 = 0)) :
    handle_dibit mode n s valid d1 d0 =
      some ({ crs := (demux mode s valid).1, dv := (demux mode s valid).2.1,
              bitcount := 0, octet := 0, dibits := [] }, []) := by
  rcases hdx : demux mode s valid with ⟨crs, dv, du⟩
  rw [hdx] at h
  dsimp only at h
  simp only [handle_dibit, hdx]
  rcases h with ⟨h1, h2⟩ | ⟨h1, h2⟩
  · subst h1
    subst h2
    rw [if_pos (by simp)]
    rfl
  · subst h1
    subst h2
    by_cases hdu : du = true
    · subst hdu
      rw [if_pos (by simp)]
      rfl
    · have hdu0 : du = false := by
        cases du
        · rfl
        · exact absurd rfl hdu
      subst hdu0
      rw [if_neg (by simp), if_pos (by simp)]
      rfl

/-- Witness for C4: in TX_EN mode with `valid = 0` and a half-full byte, the
state is fully reset and nothing is emitted. -/
theorem c4_witness :
    handle_dibit .TX_EN 9 twoSymbolState 0 1 1 =
      some ({ crs := (demux .TX_EN twoSymbolState 0).1,
              dv := (demux .TX_EN twoSymbolState 0).2.1,
              bitcount := 0, octet := 0, dibits := [] }, []) :=
  c4_invalid_or_idle_resets .TX_EN 9 twoSymbolState 0 1 1 (Or.inl (by decide))

/-- C5: the first sample of a run never triggers a decode action even when its
clock level matches the mode's trigger; a non-first sample triggers only when
the clock channel changed and the post-change clock level is low in `TX_EN`
(falling edge) resp. high in `CRS_DV` (rising edge); every other sample is
dropped with no state change and no events. -/
theorem c5_edge_gate_filtering (mode : BusMode) (matched first : Bool) (n : Int)
    (s : DecoderState) (clk valid d1 d0 : Nat) :
    (first = true →
      find_clk_edge mode matched n s clk valid d1 d0 first = some (s, [])) ∧
    (matched = false →
      find_clk_edge mode matched n s clk valid d1 d0 first = some (s, [])) ∧
    (first = false → matched = true → clk ≠ 0 →
      find_clk_edge .TX_EN matched n s clk valid d1 d0 first = some (s, [])) ∧
    (first = false → matched = true → clk = 0 →
      find_clk_edge .CRS_DV matched n s clk valid d1 d0 first = some (s, [])) ∧
    (first = false → matched = true → clk = 0 →
      find_clk_edge .TX_EN matched n s clk valid d1 d0 first =
        handle_dibit .TX_EN n s valid d1 d0) ∧
    (first = false → matched = true → clk ≠ 0 →
      find_clk_edge .CRS_DV matched n s clk valid d1 d0 first =
        handle_dibit .CRS_DV n s valid d1 d0) := by
  refine ⟨fun hf => ?_, fun hm => ?_, fun hf hm hc => ?_, fun hf hm hc => ?_,
    fun hf hm hc => ?_, fun hf hm hc => ?_⟩ <;>
    subst_vars <;> simp_all [find_clk_edge]

/-- Witness for C5: a first sample on a low clock in TX_EN mode (the trigger
level) is still ignored, and a matched non-first low-clock sample decodes. -/
theorem c5_witness :
    find_clk_edge .TX_EN true 3 resetState 0 1 1 1 true = some (resetState, []) ∧
    find_clk_edge .TX_EN true 3 resetState 0 1 1 1 false =
      handle_dibit .TX_EN 3 resetState 1 1 1 := by
  exact ⟨(c5_edge_gate_filtering .TX_EN true true 3 resetState 0 1 1 1).1 rfl,
    (c5_edge_gate_filtering .TX_EN true false 3 resetState 0 1 1 1).2.2.2.2.1 rfl rfl rfl⟩

/-- C6: a clocked-in symbol gets provisional end sample equal to the current
sample index when `bitcount = 0`, and otherwise `current + (current - start of
the most recently added record)`; in the latter case the previously inserted
record's end sample is overwritten (exactly once) with the current sample
index, the remaining records being untouched. -/
theorem c6_symbol_record_intervals (n : Int) (d1 d0 : Nat) (s : DecoderState) :
    (s.bitcount = 0 → clock_in n d1 d0 s = some { s with
      octet := s.octet ||| (((d1 <<< 1) ||| d0) <<< s.bitcount),
      dibits := { value := (d1 <<< 1) ||| d0, sampleStart := n, sampleEnd := n } :: s.dibits,
      bitcount := s.bitcount + 2 }) ∧
    (∀ (prev : DibitRecord) (rest : List DibitRecord),
      0 < s.bitcount → s.dibits = prev :: rest →
      clock_in n d1 d0 s = some { s with
        octet := s.octet ||| (((d1 <<< 1) ||| d0) <<< s.bitcount),
        dibits := { value := (d1 <<< 1) ||| d0, sampleStart := n,
                    sampleEnd := n + (n - prev.sampleStart) }
          :: { prev with sampleEnd := n } :: rest,
        bitcount := s.bitcount + 2 }) :=
  ⟨fun h => clock_in_zero n d1 d0 s h,
   fun prev rest hb hd => clock_in_pos n d1 d0 s prev rest hb hd⟩

/-- Witness for C6 at concrete inputs. -/
theorem c6_witness :
    clock_in 5 1 0 resetState = some { resetState with
      octet := resetState.octet ||| (((1 <<< 1) ||| 0) <<< resetState.bitcount),
      dibits := { value := (1 <<< 1) ||| 0, sampleStart := 5, sampleEnd := 5 }
        :: resetState.dibits,
      bitcount := resetState.bitcount + 2 } ∧
    clock_in 9 0 1 oneSymbolState = some { oneSymbolState with
      octet := oneSymbolState.octet ||| (((0 <<< 1) ||| 1) <<< oneSymbolState.bitcount),
      dibits := { value := (0 <<< 1) ||| 1, sampleStart := 9, sampleEnd := 9 + (9 - 5) }
        :: { value := 2, sampleStart := 5, sampleEnd := 9 } :: [],
      bitcount := oneSymbolState.bitcount + 2 } :=
  ⟨(c6_symbol_record_intervals 5 1 0 resetState).1 rfl,
   (c6_symbol_record_intervals 9 0 1 oneSymbolState).2
     { value := 2, sampleStart := 5, sampleEnd := 5 } [] (by decide) rfl⟩

/-- C7 counterexample: running three accepted TX_EN samples at sample indices
0, 10, 30 leaves the third symbol's provisional end sample at 50, while the
claimed formula `current + (current - firstSymbolStart)` with the first symbol
of the byte starting at 0 would give `30 + (30 - 0) = 60`. -/
theorem c7_counterexample :
    run_dibits .TX_EN resetState
        [{ samplenum := 0, valid := 1, dibit1 := 1, dibit0 := 1 },
         { samplenum := 10, valid := 1, dibit1 := 0, dibit0 := 1 },
         { samplenum := 30, valid := 1, dibit1 := 1, dibit0 := 0 }] =
      some ({ crs := 1, dv := 1, bitcount := 6, octet := 39,
              dibits := [{ value := 2, sampleStart := 30, sampleEnd := 50 },
                         { value := 1, sampleStart := 10, sampleEnd := 30 },
                         { value := 3, sampleStart := 0, sampleEnd := 10 }] }, []) ∧
    (50 : Int) ≠ 30 + (30 - 0) := by
  exact ⟨by decide, by decide⟩

/-- C7 (amended): for every non-first symbol of a byte the provisional end
sample is `current + (current - sampleStart of the most recently added
record)`, i.e. the extrapolation uses the previous symbol's start, not the
first symbol of the byte. -/
theorem c7_extrapolation_uses_previous_record (n : Int) (d1 d0 : Nat)
    (s : DecoderState) (prev : DibitRecord) (rest : List DibitRecord)
    (hb : 0 < s.bitcount) (hd : s.dibits = prev :: rest) :
    ∃ s2, clock_in n d1 d0 s = some s2 ∧
      s2.dibits.head?.map DibitRecord.sampleEnd = some (n + (n - prev.sampleStart)) :=
  ⟨_, clock_in_pos n d1 d0 s prev rest hb hd, rfl⟩

/-- Witness for the amended C7. -/
theorem c7_witness :
    ∃ s2, clock_in 30 1 0 twoSymbolState = some s2 ∧
      s2.dibits.head?.map DibitRecord.sampleEnd = some (30 + (30 - 10)) :=
  c7_extrapolation_uses_previous_record 30 1 0 twoSymbolState
    { value := 1, sampleStart := 10, sampleEnd := 30 }
    [{ value := 3, sampleStart := 0, sampleEnd := 10 }] (by decide) rfl

lemma handle_dibit_proceed (mode : BusMode) (n : Int) (s : DecoderState)
    (valid d1 d0 crs dv : Nat) (du : Bool)
    (hdx : demux mode s valid = (crs, dv, du))
    (h1 : (du && (dv == 0)) = false) (h2 : ((crs == 0) && (dv == 0)) = false)
    (s2 : DecoderState)
    (hc : clock_in n d1 d0 { s with crs := crs, dv := dv } = some s2) :
    handle_dibit mode n s valid d1 d0 =
      if s2.bitcount == BITS_PER_BYTE then
        (putdata s2.octet s2.dibits).map (fun evs => (reset_decoder_state s2, evs))
      else some (s2, []) := by
  simp only [handle_dibit, hdx, h1, h2, hc]
  cases hp : putdata s2.octet s2.dibits <;> simp [hp]

/-- C1: in TX_EN mode with the valid line held at 1, four accepted samples (at
strictly increasing indices) delivering the symbols 3, 1, 2, 0 assemble the
byte `3 ||| (1 <<< 2) ||| (2 <<< 4) ||| (0 <<< 6) = 0x27`, emit exactly one
Byte event labelled "27", and four Symbol events labelled "3", "1", "2", "0"
whose intervals are contiguous and non-overlapping. -/
theorem c1_txen_byte_scenario (n1 n2 n3 n4 : Int)
    (h12 : n1 < n2) (h23 : n2 < n3) (h34 : n3 < n4) :
    run_dibits .TX_EN resetState
        [{ samplenum := n1, valid := 1, dibit1 := 1, dibit0 := 1 },
         { samplenum := n2, valid := 1, dibit1 := 0, dibit0 := 1 },
         { samplenum := n3, valid := 1, dibit1 := 1, dibit0 := 0 },
         { samplenum := n4, valid := 1, dibit1 := 0, dibit0 := 0 }] =
      some ({ crs := 1, dv := 1, bitcount := 0, octet := 0, dibits := [] },
        [{ sampleStart := n4, sampleEnd := n4 + (n4 - n3),
           annClass := ANNOTATION_CLASS_INDEX_DIBITS, label := "0" },
         { sampleStart := n3, sampleEnd := n4,
           annClass := ANNOTATION_CLASS_INDEX_DIBITS, label := "2" },
         { sampleStart := n2, sampleEnd := n3,
           annClass := ANNOTATION_CLASS_INDEX_DIBITS, label := "1" },
         { sampleStart := n1, sampleEnd := n2,
           annClass := ANNOTATION_CLASS_INDEX_DIBITS, label := "3" },
         { sampleStart := n1, sampleEnd := n4 + (n4 - n3),
           annClass := ANNOTATION_CLASS_INDEX_OCTETS,
           label := hex2 (3 ||| (1 <<< 2) ||| (2 <<< 4) ||| (0 <<< 6)) }]) ∧
    hex2 (3 ||| (1 <<< 2) ||| (2 <<< 4) ||| (0 <<< 6)) = "27" ∧
    (3 ||| (1 <<< 2) ||| (2 <<< 4) ||| (0 <<< 6) : Nat) = 0x27 ∧
    n1 < n2 ∧ n2 < n3 ∧ n3 < n4 ∧ n4 < n4 + (n4 - n3) := by
  refine ⟨?_, by decide, by decide, h12, h23, h34, by omega⟩
  simp [run_dibits, handle_dibit, demux, clock_in, putdata, reset_decoder_state, resetState,
    BITS_PER_BYTE, ANNOTATION_CLASS_INDEX_DIBITS, ANNOTATION_CLASS_INDEX_OCTETS]
  decide

/-- Witness for C1 at sample indices 10, 20, 30, 40. -/
theorem c1_witness :
    run_dibits .TX_EN resetState
        [{ samplenum := 10, valid := 1, dibit1 := 1, dibit0 := 1 },
         { samplenum := 20, valid := 1, dibit1 := 0, dibit0 := 1 },
         { samplenum := 30, valid := 1, dibit1 := 1, dibit0 := 0 },
         { samplenum := 40, valid := 1, dibit1 := 0, dibit0 := 0 }] =
      some ({ crs := 1, dv := 1, bitcount := 0, octet := 0, dibits := [] },
        [{ sampleStart := 40, sampleEnd := 40 + (40 - 30),
           annClass := ANNOTATION_CLASS_INDEX_DIBITS, label := "0" },
         { sampleStart := 30, sampleEnd := 40,
           annClass := ANNOTATION_CLASS_INDEX_DIBITS, label := "2" },
         { sampleStart := 20, sampleEnd := 30,
           annClass := ANNOTATION_CLASS_INDEX_DIBITS, label := "1" },
         { sampleStart := 10, sampleEnd := 20,
           annClass := ANNOTATION_CLASS_INDEX_DIBITS, label := "3" },
         { sampleStart := 10, sampleEnd := 40 + (40 - 30),
           annClass := ANNOTATION_CLASS_INDEX_OCTETS,
           label := hex2 (3 ||| (1 <<< 2) ||| (2 <<< 4) ||| (0 <<< 6)) }]) ∧
    hex2 (3 ||| (1 <<< 2) ||| (2 <<< 4) ||| (0 <<< 6)) = "27" ∧
    (3 ||| (1 <<< 2) ||| (2 <<< 4) ||| (0 <<< 6) : Nat) = 0x27 ∧
    (10 : Int) < 20 ∧ (20 : Int) < 30 ∧ (30 : Int) < 40 ∧
    (40 : Int) < 40 + (40 - 30) :=
  c1_txen_byte_scenario 10 20 30 40 (by decide) (by decide) (by decide)

lemma handle_dibit_inv_step (mode : BusMode) (n : Int) (s : DecoderState) (valid d1 d0 : Nat)
    (hlen : s.bitcount = 2 * s.dibits.length) (hlt : s.bitcount < 8) :
    ∃ s2 evs, handle_dibit mode n s valid d1 d0 = some (s2, evs) ∧
      s2.bitcount = 2 * s2.dibits.length ∧ s2.bitcount < 8 ∧
      (accepted_symbol mode s valid → s2.bitcount = (s.bitcount + 2) % 8) := by
  rcases hdx : demux mode s valid with ⟨crs, dv, du⟩
  have hacc : accepted_symbol mode s valid → ¬(du = true ∧ dv = 0) ∧ ¬(crs = 0 ∧ dv = 0) := by
    intro ha
    unfold accepted_symbol at ha
    rw [hdx] at ha
    exact ha
  by_cases hinv : (du && (dv == 0)) = true
  · refine ⟨reset_decoder_state { s with crs := crs, dv := dv }, [], ?_, rfl,
      Nat.zero_lt_succ 7, fun ha => ?_⟩
    · simp only [handle_dibit, hdx]
      rw [if_pos hinv]
    · exfalso
      simp only [Bool.and_eq_true, beq_iff_eq] at hinv
      exact (hacc ha).1 ⟨hinv.1, hinv.2⟩
  · have hinv' : (du && (dv == 0)) = false := by
      cases hb : (du && (dv == 0))
      · rfl
      · exact absurd hb hinv
    by_cases hidle : ((crs == 0) && (dv == 0)) = true
    · refine ⟨reset_decoder_state { s with crs := crs, dv := dv }, [], ?_, rfl,
        Nat.zero_lt_succ 7, fun ha => ?_⟩
      · simp only [handle_dibit, hdx]
        rw [if_neg hinv, if_pos hidle]
      · exfalso
        simp only [Bool.and_eq_true, beq_iff_eq] at hidle
        exact (hacc ha).2 ⟨hidle.1, hidle.2⟩
    · have hidle' : ((crs == 0) && (dv == 0)) = false := by
        cases hb : ((crs == 0) && (dv == 0))
        · rfl
        · exact absurd hb hidle
      have h04 : s.bitcount = 0 ∨ s.bitcount = 2 ∨ s.bitcount = 4 ∨ s.bitcount = 6 := by
        omega
      rcases h04 with hb | hb | hb | hb
      · have heq := handle_dibit_proceed mode n s valid d1 d0 crs dv du hdx hinv' hidle' _
          (clock_in_zero n d1 d0 { s with crs := crs, dv := dv } hb)
        rw [heq, if_neg (by simp [hb, BITS_PER_BYTE])]
        refine ⟨_, _, rfl, ?_, ?_, fun _ => ?_⟩
        · dsimp only
          simp only [List.length_cons]
          omega
        · dsimp only
          omega
        · dsimp only
          omega
      · cases hd : s.dibits with
        | nil =>
          rw [hd] at hlen
          simp at hlen
          omega
        | cons prev rest =>
          have heq := handle_dibit_proceed mode n s valid d1 d0 crs dv du hdx hinv' hidle' _
            (clock_in_pos n d1 d0 { s with crs := crs, dv := dv } prev rest
              (by show 0 < s.bitcount; omega) hd)
          have hlen' : s.bitcount = 2 * (rest.length + 1) := by
            rw [hd] at hlen
            simpa using hlen
          rw [heq, if_neg (by simp [hb, BITS_PER_BYTE])]
          refine ⟨_, _, rfl, ?_, ?_, fun _ => ?_⟩
          · dsimp only
            simp only [List.length_cons]
            omega
          · dsimp only
            omega
          · dsimp only
            omega
      · cases hd : s.dibits with
        | nil =>
          rw [hd] at hlen
          simp at hlen
          omega
        | cons prev rest =>
          have heq := handle_dibit_proceed mode n s valid d1 d0 crs dv du hdx hinv' hidle' _
            (clock_in_pos n d1 d0 { s with crs := crs, dv := dv } prev rest
              (by show 0 < s.bitcount; omega) hd)
          have hlen' : s.bitcount = 2 * (rest.length + 1) := by
            rw [hd] at hlen
            simpa using hlen
          rw [heq, if_neg (by simp [hb, BITS_PER_BYTE])]
          refine ⟨_, _, rfl, ?_, ?_, fun _ => ?_⟩
          · dsimp only
            simp only [List.length_cons]
            omega
          · dsimp only
            omega
          · dsimp only
            omega
      · cases hd : s.dibits with
        | nil =>
          rw [hd] at hlen
          simp at hlen
          omega
        | cons prev rest =>
          have heq := handle_dibit_proceed mode n s valid d1 d0 crs dv du hdx hinv' hidle' _
            (clock_in_pos n d1 d0 { s with crs := crs, dv := dv } prev rest
              (by show 0 < s.bitcount; omega) hd)
          rw [heq, if_pos (by simp [hb, BITS_PER_BYTE])]
          refine ⟨_, _, rfl, rfl, Nat.zero_lt_succ 7, fun _ => ?_⟩
          show (0 : Nat) = (s.bitcount + 2) % 8
          omega

lemma run_dibits_inv (mode : BusMode) (samples : List AcceptedSample) :
    ∀ s : DecoderState, s.bitcount = 2 * s.dibits.length → s.bitcount < 8 →
      ∃ st evs, run_dibits mode s samples = some (st, evs) ∧
        st.bitcount = 2 * st.dibits.length ∧ st.bitcount < 8 := by
  induction samples with
  | nil => exact fun s h1 h2 => ⟨s, [], rfl, h1, h2⟩
  | cons a rest ih =>
    intro s h1 h2
    obtain ⟨s1, evs1, hstep, hl1, hlt1, _⟩ :=
      handle_dibit_inv_step mode a.samplenum s a.valid a.dibit1 a.dibit0 h1 h2
    obtain ⟨st, evs2, hrun, hl2, hlt2⟩ := ih s1 hl1 hlt1
    refine ⟨st, evs1 ++ evs2, ?_, hl2, hlt2⟩
    simp only [run_dibits, hstep, hrun]

/-- C2: after any sequence of accepted samples starting from the reset state the
decoder state satisfies `bitcount ∈ {0, 2, 4, 6}` and
`bitcount = 2 * length of the symbol records`, and `bitcount` is never stored
as 8; moreover every accepted symbol advances `bitcount` by 2 modulo 8, so it
cycles back to 0 exactly every 4 accepted symbols. -/
theorem c2_bitcount_invariant :
    (∀ (mode : BusMode) (samples : List AcceptedSample),
      ∃ st evs, run_dibits mode resetState samples = some (st, evs) ∧
        (st.bitcount = 0 ∨ st.bitcount = 2 ∨ st.bitcount = 4 ∨ st.bitcount = 6) ∧
        st.bitcount = 2 * st.dibits.length ∧ st.bitcount ≠ 8) ∧
    (∀ (mode : BusMode) (n : Int) (s : DecoderState) (valid d1 d0 : Nat),
      s.bitcount = 2 * s.dibits.length → s.bitcount < 8 →
      accepted_symbol mode s valid →
      ∃ s2 evs, handle_dibit mode n s valid d1 d0 = some (s2, evs) ∧
        s2.bitcount = (s.bitcount + 2) % 8) := by
  constructor
  · intro mode samples
    obtain ⟨st, evs, hrun, hl, hlt⟩ := run_dibits_inv mode samples resetState rfl (by decide)
    exact ⟨st, evs, hrun, by omega, hl, by omega⟩
  · intro mode n s valid d1 d0 h1 h2 ha
    obtain ⟨s2, evs, hstep, _, _, hcyc⟩ := handle_dibit_inv_step mode n s valid d1 d0 h1 h2
    exact ⟨s2, evs, hstep, hcyc ha⟩

/-- Witness for C2 at concrete inputs. -/
theorem c2_witness :
    (∃ st evs, run_dibits .TX_EN resetState
        [{ samplenum := 0, valid := 1, dibit1 := 1, dibit0 := 1 }] = some (st, evs) ∧
      (st.bitcount = 0 ∨ st.bitcount = 2 ∨ st.bitcount = 4 ∨ st.bitcount = 6) ∧
      st.bitcount = 2 * st.dibits.length ∧ st.bitcount ≠ 8) ∧
    (∃ s2 evs, handle_dibit .TX_EN 0 resetState 1 1 1 = some (s2, evs) ∧
      s2.bitcount = (resetState.bitcount + 2) % 8) :=
  ⟨c2_bitcount_invariant.1 .TX_EN [{ samplenum := 0, valid := 1, dibit1 := 1, dibit0 := 1 }],
   c2_bitcount_invariant.2 .TX_EN 0 resetState 1 1 1 rfl (by decide) (by decide)⟩

set_option maxRecDepth 8000 in
/-- C8: on a completed byte, `putdata` emits one event per symbol record
labelled with the record's decimal value (so values 0-3 render as "0".."3"),
followed by exactly one Byte event spanning from the `sampleStart` of the
oldest record (the last in the newest-first ordering) to the `sampleEnd` of the
newest record (the first), labelled with the two-digit uppercase hexadecimal
rendering of the assembled octet. -/
theorem c8_putdata_events (octet : Nat) (newest : DibitRecord) (rest : List DibitRecord) :
    putdata octet (newest :: rest) =
      some ((newest :: rest).map (fun d =>
          { sampleStart := d.sampleStart, sampleEnd := d.sampleEnd,
            annClass := ANNOTATION_CLASS_INDEX_DIBITS, label := Nat.repr d.value })
        ++ [{ sampleStart :=
                ((newest :: rest).getLast (List.cons_ne_nil newest rest)).sampleStart,
              sampleEnd := newest.sampleEnd,
              annClass := ANNOTATION_CLASS_INDEX_OCTETS, label := hex2 octet }]) ∧
    (octet < 256 →
      (hex2 octet).length = 2 ∧
      ((hex2 octet).data.all fun c => isHexUpperDigit c) = true ∧
      (hex2 octet).data.foldl (fun a c => 16 * a + hexVal c) 0 = octet) ∧
    (Nat.repr 0 = "0" ∧ Nat.repr 1 = "1" ∧ Nat.repr 2 = "2" ∧ Nat.repr 3 = "3") := by
  refine ⟨rfl, fun h => ?_, by decide, by decide, by decide, by decide⟩
  exact (by decide :
    ∀ m < 256, (hex2 m).length = 2 ∧
      ((hex2 m).data.all fun c => isHexUpperDigit c) = true ∧
      (hex2 m).data.foldl (fun a c => 16 * a + hexVal c) 0 = m) octet h

/-- Witness for C8: the byte 0x27 renders as the two uppercase hex digits
"27", which parse back to 39. -/
theorem c8_witness :
    (hex2 39).length = 2 ∧
    ((hex2 39).data.all fun c => isHexUpperDigit c) = true ∧
    (hex2 39).data.foldl (fun a c => 16 * a + hexVal c) 0 = 39 :=
  (c8_putdata_events 39 { value := 0, sampleStart := 40, sampleEnd := 50 } []).2.1
    (by decide)

/-- C9: if any of the four required channels is absent, `decode` fails with the
channel error without examining the sample stream: the result is the same as
decoding with no samples at all, so no sample is processed. -/
theorem c9_missing_channel (mode : BusMode) (hasChannel : Nat → Bool) (c : Nat)
    (hc : c < CHANNELS_LENGTH) (hmiss : hasChannel c = false)
    (samples : List WaitedSample) :
    decode mode hasChannel samples = Except.error CHANNEL_ERROR_MESSAGE ∧
    decode mode hasChannel samples = decode mode hasChannel [] := by
  have hall : ((List.range CHANNELS_LENGTH).all hasChannel) = false := by
    rw [Bool.eq_false_iff]
    intro hall
    have hmem := List.all_eq_true.mp hall c (List.mem_range.mpr hc)
    rw [hmiss] at hmem
    exact Bool.false_ne_true hmem
  constructor <;> simp [decode, hall]

/-- Witness for C9: a configuration missing channel 3 (the data-bit-0 pin). -/
theorem c9_witness :
    decode .CRS_DV (fun c => c != 3)
        [{ samplenum := 0, clk := 1, valid := 1, dibit1 := 0, dibit0 := 0,
           matchedClk := true }] = Except.error CHANNEL_ERROR_MESSAGE ∧
    decode .CRS_DV (fun c => c != 3)
        [{ samplenum := 0, clk := 1, valid := 1, dibit1 := 0, dibit0 := 0,
           matchedClk := true }] = decode .CRS_DV (fun c => c != 3) [] :=
  c9_missing_channel .CRS_DV (fun c => c != 3) 3 (by decide) (by decide)
    [{ samplenum := 0, clk := 1, valid := 1, dibit1 := 0, dibit0 := 0,
       matchedClk := true }]

/-- C10: the decoder-state reset clears only `bitcount`, `octet` and the record
list while `crs` and `dv` keep their values (they are zeroed only at session
construction); consequently, in CRS_DV mode at a carrier-sense phase directly
after a reset (`bitcount = 0`) with the valid line low, whether the idle check
fires is decided by the `dv` value left over from before the reset: a leftover
`dv = 0` resets again, a leftover `dv ≠ 0` clocks in a symbol. -/
theorem c10_flags_survive_reset :
    (∀ s : DecoderState,
      (reset_decoder_state s).crs = s.crs ∧ (reset_decoder_state s).dv = s.dv ∧
      (reset_decoder_state s).bitcount = 0 ∧ (reset_decoder_state s).octet = 0 ∧
      (reset_decoder_state s).dibits = []) ∧
    (resetState.crs = 0 ∧ resetState.dv = 0) ∧
    (∀ (n : Int) (s : DecoderState) (d1 d0 : Nat), s.bitcount = 0 → s.dv = 0 →
      handle_dibit .CRS_DV n s 0 d1 d0 =
        some ({ crs := 0, dv := s.dv, bitcount := 0, octet := 0, dibits := [] }, [])) ∧
    (∀ (n : Int) (s : DecoderState) (d1 d0 : Nat),
      s.bitcount = 0 → s.dibits = [] → s.dv ≠ 0 →
      ∃ s2 evs, handle_dibit .CRS_DV n s 0 d1 d0 = some (s2, evs) ∧
        s2.dibits.length = 1) := by
  refine ⟨fun s => ⟨rfl, rfl, rfl, rfl, rfl⟩, ⟨rfl, rfl⟩,
    fun n s d1 d0 hb hdv => ?_, fun n s d1 d0 hb hd hdv => ?_⟩
  · have hdx : demux .CRS_DV s 0 = (0, s.dv, false) := by
      simp [demux, hb]
    simp only [handle_dibit, hdx]
    rw [if_neg (by simp), if_pos (by simp [hdv])]
    rfl
  · have hdx : demux .CRS_DV s 0 = (0, s.dv, false) := by
      simp [demux, hb]
    have hdv' : (s.dv == 0) = false := by
      simpa using hdv
    have heq := handle_dibit_proceed .CRS_DV n s 0 d1 d0 0 s.dv false hdx
      (by simp) (by simp [hdv']) _
      (clock_in_zero n d1 d0 { s with crs := 0, dv := s.dv } hb)
    rw [heq, if_neg (by simp [hb, BITS_PER_BYTE])]
    refine ⟨_, _, rfl, ?_⟩
    simp [hd]

/-- Witness for C10: after an idle reset in CRS_DV mode, a leftover `dv = 1`
makes the decoder clock in a symbol at a carrier-sense phase even though the
valid line is low. -/
theorem c10_witness :
    handle_dibit .CRS_DV 7 resetState 0 1 1 =
      some ({ crs := 0, dv := resetState.dv, bitcount := 0, octet := 0,
              dibits := [] }, []) ∧
    (∃ s2 evs, handle_dibit .CRS_DV 7 { resetState with dv := 1 } 0 1 1 =
      some (s2, evs) ∧ s2.dibits.length = 1) :=
  ⟨c10_flags_survive_reset.2.2.1 7 resetState 1 1 rfl rfl,
   c10_flags_survive_reset.2.2.2 7 { resetState with dv := 1 } 1 1 rfl rfl (by decide)⟩

end RMII
